import Mathlib

/-!
Shallow embedding of `src/s3_perf.cc` (an S3 upload/download throughput
benchmark) and proofs about its slot limiter (`Ctx`), its completion
handlers (`ObjUploadDone`, `ObjDownloadDone`), its object-key generation
(`GetObjPrefix` and the driver loops), its startup normalization of
`num_outstanding_req`, its stage selection and iteration structure in
`main`, and its throughput reporter (`ReportDuration`).

Machine `int` values are modelled as `Int` (none of the verified claims
depends on 32-bit overflow), C++ `double` arithmetic in the reporter is
modelled exactly over `ℚ`, and the `Ctx` counter protected by its mutex is
modelled as a guarded transition system: each `GetAvailableSlot` /
`ReleaseSlot` critical section is one atomic step, and an arbitrary list of
steps models any interleaving of the driver thread with the SDK completion
threads.
-/

namespace S3Perf

/-- The gflags of `src/s3_perf.cc` (lines 26-56) with their default values.
The field `objPrefix` models `FLAGS_prefix`. -/
structure Flags where
  bucket_name : String := "ltsstest"
  region : String := "us-west-1"
  objPrefix : String := "obj/"
  obj_size_kb : Int := 1024
  num_threads : Int := 1
  num_objects : Int := 100
  num_connections : Int := 25
  num_outstanding_req : Int := 0
  stage : String := "all"
  count : Int := 5

/-! ## The slot limiter `Ctx` (src/s3_perf.cc lines 130-161) -/

/-- `Ctx::GetAvailableSlot` (lines 132-140): under the mutex, once the wait
has let the count drop strictly below the maximum `m`, assert
`num_outstanding_req_ < m` and increment.  `none` models the blocked state
(the count is at or above `m`, so the caller sits in `cond_.wait`) in which
no increment happens. -/
def GetAvailableSlot (m c : Int) : Option Int :=
  if c < m then some (c + 1) else none

/-- `Ctx::ReleaseSlot` (lines 142-147): under the mutex, assert
`num_outstanding_req_ > 0`, decrement, and notify one waiter.  `none`
models the assertion failure on a release without a matching prior
acquire. -/
def ReleaseSlot (c : Int) : Option Int :=
  if 0 < c then some (c - 1) else none

/-- The two atomic operations on `Ctx`'s counter: an acquire from the
driver thread, a release from an SDK completion thread. -/
inductive SlotOp
  | acquire
  | release
deriving DecidableEq, Repr

/-- One atomic critical section on the counter. -/
def slotStep (m : Int) : SlotOp → Int → Option Int
  | SlotOp.acquire, c => GetAvailableSlot m c
  | SlotOp.release, c => ReleaseSlot c

/-- A finite interleaving of acquires and releases run against the counter;
`none` as soon as one step blocks or fails its assertion. -/
def runOps (m : Int) : List SlotOp → Int → Option Int
  | [], c => some c
  | op :: ops, c => (slotStep m op c).bind (runOps m ops)

/-- Number of `acquire` steps in an interleaving. -/
def numAcquires : List SlotOp → Int
  | [] => 0
  | SlotOp.acquire :: ops => numAcquires ops + 1
  | SlotOp.release :: ops => numAcquires ops

/-- Number of `release` steps in an interleaving. -/
def numReleases : List SlotOp → Int
  | [] => 0
  | SlotOp.acquire :: ops => numReleases ops
  | SlotOp.release :: ops => numReleases ops + 1

/-- The loop condition of `Ctx::WaitAll` (line 152): the wait loop runs
while `num_outstanding_req_ > 0`, and `WaitAll` returns exactly when this
is false. -/
def waitAllLoopCond (c : Int) : Bool := decide (0 < c)

/-- Helper: the counter stays within `[0, m]` along any run that starts
within `[0, m]`. -/
lemma runOps_mem_Icc (m : Int) (ops : List SlotOp) :
    ∀ c0 c : Int, 0 ≤ c0 → c0 ≤ m → runOps m ops c0 = some c →
      0 ≤ c ∧ c ≤ m := by
  induction ops with
  | nil =>
    intro c0 c h0 h1 h
    simp only [runOps, Option.some.injEq] at h
    omega
  | cons op ops ih =>
    intro c0 c h0 h1 h
    simp only [runOps, Option.bind_eq_some] at h
    obtain ⟨c1, hstep, hrest⟩ := h
    cases op with
    | acquire =>
      simp only [slotStep, GetAvailableSlot] at hstep
      split at hstep
      · have hc1 : c0 + 1 = c1 := Option.some.inj hstep
        exact ih c1 c (by omega) (by omega) hrest
      · exact absurd hstep (by simp)
    | release =>
      simp only [slotStep, ReleaseSlot] at hstep
      split at hstep
      · have hc1 : c0 - 1 = c1 := Option.some.inj hstep
        exact ih c1 c (by omega) (by omega) hrest
      · exact absurd hstep (by simp)

/-- C1: for every configured maximum `m > 0`, along any interleaving of
`GetAvailableSlot` and `ReleaseSlot` critical sections starting from count
0 the outstanding count stays within `[0, m]`; `GetAvailableSlot`
increments (by one) only when the count is strictly below `m`, and
`ReleaseSlot` decrements (by one) only when the count is strictly
positive. -/
theorem slot_limiter_invariant (m : Int) (hm : 0 < m) :
    (∀ (ops : List SlotOp) (c : Int),
        runOps m ops 0 = some c → 0 ≤ c ∧ c ≤ m) ∧
    (∀ c c2 : Int, GetAvailableSlot m c = some c2 → c < m ∧ c2 = c + 1) ∧
    (∀ c c2 : Int, ReleaseSlot c = some c2 → 0 < c ∧ c2 = c - 1) := by
  refine ⟨fun ops c h => runOps_mem_Icc m ops 0 c le_rfl (by omega) h,
    fun c c2 h => ?_, fun c c2 h => ?_⟩
  · unfold GetAvailableSlot at h
    split at h
    · have hc2 : c + 1 = c2 := Option.some.inj h
      exact ⟨by assumption, by omega⟩
    · exact absurd h (by simp)
  · unfold ReleaseSlot at h
    split at h
    · have hc2 : c - 1 = c2 := Option.some.inj h
      exact ⟨by assumption, by omega⟩
    · exact absurd h (by simp)

/-- C1 witness: `m = 2`, the interleaving `[acquire]`, final count 1. -/
theorem slot_limiter_invariant_witness :
    0 ≤ (1 : Int) ∧ (1 : Int) ≤ 2 :=
  (slot_limiter_invariant 2 (by norm_num)).1 [SlotOp.acquire] 1 (by decide)

/-- Helper: along any run the final count is the initial count plus the
number of acquires minus the number of releases. -/
lemma runOps_eq_count (m : Int) (ops : List SlotOp) :
    ∀ c0 c : Int, runOps m ops c0 = some c →
      c = c0 + numAcquires ops - numReleases ops := by
  induction ops with
  | nil =>
    intro c0 c h
    simp only [runOps, Option.some.injEq] at h
    simp only [numAcquires, numReleases]
    omega
  | cons op ops ih =>
    intro c0 c h
    simp only [runOps, Option.bind_eq_some] at h
    obtain ⟨c1, hstep, hrest⟩ := h
    cases op with
    | acquire =>
      simp only [slotStep, GetAvailableSlot] at hstep
      split at hstep
      · have hc1 : c0 + 1 = c1 := Option.some.inj hstep
        have := ih c1 c hrest
        simp only [numAcquires, numReleases]
        omega
      · exact absurd hstep (by simp)
    | release =>
      simp only [slotStep, ReleaseSlot] at hstep
      split at hstep
      · have hc1 : c0 - 1 = c1 := Option.some.inj hstep
        have := ih c1 c hrest
        simp only [numAcquires, numReleases]
        omega
      · exact absurd hstep (by simp)

/-- C2: after a worker's run of submissions and completions, the count
equals acquires minus releases; `Ctx::WaitAll`'s loop exits only with the
count at exactly 0 (all matching releases observed), and never while the
count is still positive (a request outstanding). -/
theorem waitAll_returns_only_at_zero (m : Int) (hm : 0 < m)
    (ops : List SlotOp) (c : Int) (h : runOps m ops 0 = some c) :
    c = numAcquires ops - numReleases ops ∧
    (waitAllLoopCond c = false → c = 0) ∧
    (0 < c → waitAllLoopCond c = true) := by
  have hbounds := runOps_mem_Icc m ops 0 c le_rfl (by omega) h
  have hcount := runOps_eq_count m ops 0 c h
  refine ⟨by omega, fun hfalse => ?_, fun hpos => ?_⟩
  · simp only [waitAllLoopCond, decide_eq_false_iff_not, not_lt] at hfalse
    omega
  · simp only [waitAllLoopCond, decide_eq_true_eq]
    omega

/-- C2 witness: `m = 1`, one acquire then its release, final count 0. -/
theorem waitAll_returns_only_at_zero_witness :
    (0 : Int) = numAcquires [SlotOp.acquire, SlotOp.release] -
        numReleases [SlotOp.acquire, SlotOp.release] ∧
    (waitAllLoopCond 0 = false → (0 : Int) = 0) ∧
    ((0 : Int) < 0 → waitAllLoopCond 0 = true) :=
  waitAll_returns_only_at_zero 1 (by norm_num)
    [SlotOp.acquire, SlotOp.release] 0 (by decide)

/-! ## Completion handlers (src/s3_perf.cc lines 167-181 and 237-258) -/

/-- Outcome of an async `PutObject` as the completion handler sees it:
`outcome.IsSuccess()`, or an error with its exception name and message. -/
inductive PutOutcome
  | success
  | failure (exceptionName message : String)
deriving DecidableEq, Repr

/-- Outcome of an async `GetObject`: on success the handler reads the
result's content length. -/
inductive GetOutcome
  | success (contentLength : Int)
  | failure (exceptionName message : String)
deriving DecidableEq, Repr

/-- The observable effect of one completion-handler invocation:
`exitProcess code line` models `cerr << line` followed by `exit(code)`
(no retry, no release, no return to the driver), `released c` models a
normal return with the slot freed and the counter now `c`, and
`assertFailed` models `ReleaseSlot`'s failed assertion. -/
inductive HandlerEffect
  | exitProcess (code : Int) (stderrLine : String)
  | released (c : Int)
  | assertFailed
deriving DecidableEq, Repr

/-- `ObjUploadDone` (lines 167-181): a failed outcome prints
`ERROR: <name>: <message>` to standard error and calls `exit(1)`; a
successful one releases the slot on the request's `Ctx`. -/
def ObjUploadDone (outcome : PutOutcome) (c : Int) : HandlerEffect :=
  match outcome with
  | PutOutcome.failure en msg =>
      HandlerEffect.exitProcess 1 ("ERROR: " ++ en ++ ": " ++ msg)
  | PutOutcome.success =>
      match ReleaseSlot c with
      | some c2 => HandlerEffect.released c2
      | none => HandlerEffect.assertFailed

/-- `ObjDownloadDone` (lines 237-258): a failed outcome prints
`ERROR: <name>: <message>` and calls `exit(1)`; a successful one first
checks the content length against `obj_size_kb * 1024`, printing
`ERROR: invalid object size <actual>, expected <expected> bytes` and
calling `exit(1)` on mismatch, and only then releases the slot. -/
def ObjDownloadDone (obj_size_kb : Int) (outcome : GetOutcome) (c : Int) :
    HandlerEffect :=
  match outcome with
  | GetOutcome.failure en msg =>
      HandlerEffect.exitProcess 1 ("ERROR: " ++ en ++ ": " ++ msg)
  | GetOutcome.success contentLength =>
      if contentLength ≠ obj_size_kb * 1024 then
        HandlerEffect.exitProcess 1
          ("ERROR: invalid object size " ++ toString contentLength ++
            ", expected " ++ toString (obj_size_kb * 1024) ++ " bytes")
      else
        match ReleaseSlot c with
        | some c2 => HandlerEffect.released c2
        | none => HandlerEffect.assertFailed

/-- `main` (line 340) returns 0 after all requested stages succeed; the
only other process exits are the handlers' `exit(1)` calls. -/
def mainSuccessExitCode : Int := 0

/-- C3: a transport/service error in an upload or download completion makes
the handler print the error name and message to standard error and exit the
whole process with status 1; every exit it performs is non-zero, the slot
is never released on the failure path, and the success exit code of `main`
is 0. -/
theorem failed_completion_exits_nonzero (en msg : String)
    (obj_size_kb c : Int) :
    ObjUploadDone (PutOutcome.failure en msg) c
      = HandlerEffect.exitProcess 1 ("ERROR: " ++ en ++ ": " ++ msg) ∧
    ObjDownloadDone obj_size_kb (GetOutcome.failure en msg) c
      = HandlerEffect.exitProcess 1 ("ERROR: " ++ en ++ ": " ++ msg) ∧
    (∀ code line, ObjUploadDone (PutOutcome.failure en msg) c
        = HandlerEffect.exitProcess code line → code ≠ 0) ∧
    (∀ code line, ObjDownloadDone obj_size_kb (GetOutcome.failure en msg) c
        = HandlerEffect.exitProcess code line → code ≠ 0) ∧
    (∀ c2, ObjUploadDone (PutOutcome.failure en msg) c
        ≠ HandlerEffect.released c2) ∧
    (∀ c2, ObjDownloadDone obj_size_kb (GetOutcome.failure en msg) c
        ≠ HandlerEffect.released c2) ∧
    mainSuccessExitCode = 0 := by
  refine ⟨rfl, rfl, ?_, ?_, ?_, ?_, rfl⟩
  · intro code line hcode
    simp only [ObjUploadDone, HandlerEffect.exitProcess.injEq] at hcode
    omega
  · intro code line hcode
    simp only [ObjDownloadDone, HandlerEffect.exitProcess.injEq] at hcode
    omega
  · intro c2 hc
    simp only [ObjUploadDone] at hc
    exact HandlerEffect.noConfusion hc
  · intro c2 hc
    simp only [ObjDownloadDone] at hc
    exact HandlerEffect.noConfusion hc

/-- C4: a successful download completion whose content length differs from
`obj_size_kb * 1024` prints an error naming the actual and expected sizes
and exits with status 1, never releasing the slot; a matching length passes
the check and releases the slot instead of exiting. -/
theorem download_size_mismatch_aborts (obj_size_kb contentLength c : Int) :
    (contentLength ≠ obj_size_kb * 1024 →
      ObjDownloadDone obj_size_kb (GetOutcome.success contentLength) c
        = HandlerEffect.exitProcess 1
            ("ERROR: invalid object size " ++ toString contentLength ++
              ", expected " ++ toString (obj_size_kb * 1024) ++ " bytes") ∧
      (∀ c2, ObjDownloadDone obj_size_kb (GetOutcome.success contentLength) c
          ≠ HandlerEffect.released c2)) ∧
    (contentLength = obj_size_kb * 1024 → 0 < c →
      ObjDownloadDone obj_size_kb (GetOutcome.success contentLength) c
        = HandlerEffect.released (c - 1)) := by
  constructor
  · intro hne
    constructor
    · simp only [ObjDownloadDone, if_pos hne]
    · intro c2 hc
      simp only [ObjDownloadDone, if_pos hne] at hc
      exact HandlerEffect.noConfusion hc
  · intro heq hpos
    simp only [ObjDownloadDone, heq, ne_eq, not_true_eq_false, if_false,
      ReleaseSlot, if_pos hpos]

/-- C4 witness: `obj_size_kb = 1`, a 1000-byte payload (expected 1024). -/
theorem download_size_mismatch_aborts_witness :
    (ObjDownloadDone 1 (GetOutcome.success 1000) 1
        = HandlerEffect.exitProcess 1
            ("ERROR: invalid object size " ++ toString (1000 : Int) ++
              ", expected " ++ toString ((1 : Int) * 1024) ++ " bytes") ∧
      (∀ c2, ObjDownloadDone 1 (GetOutcome.success 1000) 1
          ≠ HandlerEffect.released c2)) ∧
    ObjDownloadDone 1 (GetOutcome.success 1024) 1
      = HandlerEffect.released (1 - 1) :=
  ⟨(download_size_mismatch_aborts 1 1000 1).1 (by decide),
    (download_size_mismatch_aborts 1 1024 1).2 (by decide) (by norm_num)⟩

/-! ## Startup normalization of the slot capacity (src/s3_perf.cc lines 309-311) -/

/-- The one normalization `main` applies right after parsing the flags:
`if (FLAGS_num_outstanding_req <= 0) FLAGS_num_outstanding_req =
FLAGS_num_connections;`.  Every later `GetAvailableSlot` reads the already
normalized value; `slotStep` takes it as a fixed parameter and never
consults `num_connections` again. -/
def normalizeOutstanding (req conns : Int) : Int :=
  if req ≤ 0 then conns else req

/-- C5: a configured maximum of 0 or less is replaced, once at startup, by
the configured connections-per-thread value, and a positive configured
maximum is left unchanged. -/
theorem normalize_outstanding_spec (req conns : Int) :
    (req ≤ 0 → normalizeOutstanding req conns = conns) ∧
    (0 < req → normalizeOutstanding req conns = req) := by
  constructor
  · intro hle
    simp only [normalizeOutstanding, if_pos hle]
  · intro hpos
    simp only [normalizeOutstanding, if_neg (by omega : ¬ req ≤ 0)]

/-- C5 witness: the defaults `num_outstanding_req = 0`,
`num_connections = 25`, and a positive override 7. -/
theorem normalize_outstanding_spec_witness :
    normalizeOutstanding 0 25 = 25 ∧ normalizeOutstanding 7 25 = 7 :=
  ⟨(normalize_outstanding_spec 0 25).1 (by norm_num),
    (normalize_outstanding_spec 7 25).2 (by norm_num)⟩

/-- C10: when both the configured maximum and the configured connection
count are nonpositive, the normalized capacity is still nonpositive; the
very first `GetAvailableSlot` (count 0) finds `0 < m` false, so it takes
the wait branch (the guarded step blocks), and no nonnegative count can
ever satisfy the assertion `count < m`: acquire can never succeed under
this configuration. -/
theorem nonpositive_capacity_blocks_acquire (req conns : Int)
    (hreq : req ≤ 0) (hconns : conns ≤ 0) :
    normalizeOutstanding req conns ≤ 0 ∧
    GetAvailableSlot (normalizeOutstanding req conns) 0 = none ∧
    (∀ c : Int, 0 ≤ c → ¬ (c < normalizeOutstanding req conns)) := by
  have hm : normalizeOutstanding req conns ≤ 0 := by
    simp only [normalizeOutstanding, if_pos hreq]
    exact hconns
  have hno : ¬ ((0 : Int) < normalizeOutstanding req conns) := by omega
  refine ⟨hm, ?_, fun c hc => by omega⟩
  simp only [GetAvailableSlot, if_neg hno]

/-- C10 witness: `num_outstanding_req = 0`, `num_connections = -1`. -/
theorem nonpositive_capacity_blocks_acquire_witness :
    normalizeOutstanding 0 (-1) ≤ 0 ∧
    GetAvailableSlot (normalizeOutstanding 0 (-1)) 0 = none ∧
    (∀ c : Int, 0 ≤ c → ¬ (c < normalizeOutstanding 0 (-1))) :=
  nonpositive_capacity_blocks_acquire 0 (-1) (by norm_num) (by norm_num)

/-! ## Object keys (src/s3_perf.cc lines 94-97, 197-212, 274-284) -/

/-- `GetObjPrefix` (lines 94-97): the per-worker key base
`FLAGS_prefix + to_string(thread_num) + "_"`. -/
def GetObjPrefix (objPrefix : String) (thread_num : Int) : String :=
  objPrefix ++ toString thread_num ++ "_"

/-- The key `UploadThread` sets on the request for object index `ii`
(lines 203-204): `obj_name_prefix + to_string(ii)`. -/
def uploadKey (objPrefix : String) (thread_num ii : Int) : String :=
  GetObjPrefix objPrefix thread_num ++ toString ii

/-- The key `DownloadThread` sets on the request for object index `ii`
(lines 277-278): `obj_name_prefix + to_string(ii)`. -/
def downloadKey (objPrefix : String) (thread_num ii : Int) : String :=
  GetObjPrefix objPrefix thread_num ++ toString ii

/-- The keys of the requests `UploadThread`'s loop submits, in order
(lines 197-212): one per index in `[0, num_objects)`. -/
def uploadThreadKeys (objPrefix : String) (thread_num num_objects : Int) :
    List String :=
  (List.range num_objects.toNat).map
    fun ii => uploadKey objPrefix thread_num (Int.ofNat ii)

/-- The keys of the requests `DownloadThread`'s loop submits, in order
(lines 274-284). -/
def downloadThreadKeys (objPrefix : String) (thread_num num_objects : Int) :
    List String :=
  (List.range num_objects.toNat).map
    fun ii => downloadKey objPrefix thread_num (Int.ofNat ii)

/-- C6: key generation is a pure function of the prefix, worker id and
object index, always producing `prefix ++ worker_id ++ "_" ++ index`; the
upload and download drivers use the identical formula, and each driver's
loop submits exactly `num_objects` requests, the one at position `i`
carrying the key for index `i`. -/
theorem object_keys_deterministic (objPrefix : String)
    (thread_num num_objects : Int) (hn : 0 ≤ num_objects) :
    (∀ ii : Int, uploadKey objPrefix thread_num ii
        = objPrefix ++ toString thread_num ++ "_" ++ toString ii) ∧
    (∀ ii : Int, downloadKey objPrefix thread_num ii
        = uploadKey objPrefix thread_num ii) ∧
    ((uploadThreadKeys objPrefix thread_num num_objects).length : Int)
        = num_objects ∧
    downloadThreadKeys objPrefix thread_num num_objects
        = uploadThreadKeys objPrefix thread_num num_objects ∧
    (∀ i : Nat, (hi : i <
        (uploadThreadKeys objPrefix thread_num num_objects).length) →
      (uploadThreadKeys objPrefix thread_num num_objects).get ⟨i, hi⟩
        = uploadKey objPrefix thread_num (i : Int)) := by
  refine ⟨fun ii => ?_, fun ii => rfl, ?_, rfl, fun i hi => ?_⟩
  · simp only [uploadKey, GetObjPrefix, String.append_assoc]
  · simp only [uploadThreadKeys, List.length_map, List.length_range]
    omega
  · simp only [uploadThreadKeys, List.get_eq_getElem, List.getElem_map,
      List.getElem_range]
    norm_cast

/-- C6 witness: prefix `obj/`, worker 1, 2 objects. -/
theorem object_keys_deterministic_witness :
    uploadKey ("obj/") 1 0 = ("obj/") ++ toString (1 : Int) ++ "_"
        ++ toString (0 : Int) ∧
    ((uploadThreadKeys ("obj/") 1 2).length : Int) = 2 :=
  ⟨(object_keys_deterministic ("obj/") 1 2 (by norm_num)).1 0,
    (object_keys_deterministic ("obj/") 1 2 (by norm_num)).2.2.1⟩

/-! ## The reporter `ReportDuration` (src/s3_perf.cc lines 99-128) -/

/-- What one `ReportDuration` destructor prints (lines 112-122), with the
C++ `double` arithmetic carried out exactly over `ℚ`. -/
structure ReportSummary where
  num_obj : Int
  total_size_mb : ℚ
  throughput_mb_per_sec : ℚ
  obj_per_sec : ℚ

/-- `ReportDuration::~ReportDuration` (lines 112-122): with elapsed time
`time_sec`, it computes `num_obj = num_threads_ * obj_per_thread_`,
`total_size_mb = obj_size_kb_ * num_obj / 1024`, and prints
`total_size_mb / time_sec` MB/sec and `num_obj / time_sec` obj/sec. -/
def reportDuration (num_threads obj_per_thread obj_size_kb : Int)
    (time_sec : ℚ) : ReportSummary :=
  let num_obj : Int := num_threads * obj_per_thread
  let total_size_mb : ℚ := (obj_size_kb : ℚ) * (num_obj : ℚ) / 1024
  { num_obj := num_obj
    total_size_mb := total_size_mb
    throughput_mb_per_sec := total_size_mb / time_sec
    obj_per_sec := (num_obj : ℚ) / time_sec }

/-- C7: the printed summary satisfies exactly the spec's formulas: object
count is `num_threads * obj_per_thread`, total MB is
`obj_size_kb * count / 1024`, throughput is total MB over elapsed seconds,
and objects/sec is object count over elapsed seconds. -/
theorem reporter_formulas (num_threads obj_per_thread obj_size_kb : Int)
    (time_sec : ℚ) :
    (reportDuration num_threads obj_per_thread obj_size_kb time_sec).num_obj
        = num_threads * obj_per_thread ∧
    (reportDuration num_threads obj_per_thread obj_size_kb
          time_sec).total_size_mb
        = (obj_size_kb : ℚ) *
            ((reportDuration num_threads obj_per_thread obj_size_kb
              time_sec).num_obj : ℚ) / 1024 ∧
    (reportDuration num_threads obj_per_thread obj_size_kb
          time_sec).throughput_mb_per_sec
        = (reportDuration num_threads obj_per_thread obj_size_kb
            time_sec).total_size_mb / time_sec ∧
    (reportDuration num_threads obj_per_thread obj_size_kb
          time_sec).obj_per_sec
        = ((reportDuration num_threads obj_per_thread obj_size_kb
            time_sec).num_obj : ℚ) / time_sec :=
  ⟨rfl, rfl, rfl, rfl⟩

/-! ## Stage selection and iteration in `main` (src/s3_perf.cc lines 319-337) -/

/-- Line 319: the upload stage runs whenever `FLAGS_stage` is not the exact
string `"download"`. -/
def runsUploadStage (stage : String) : Bool := decide (stage ≠ "download")

/-- Line 329: the download stage runs whenever `FLAGS_stage` is not the
exact string `"upload"`. -/
def runsDownloadStage (stage : String) : Bool := decide (stage ≠ "upload")

/-- The iteration numbers a selected stage's loop executes (lines 324-327
and 334-336): `ii` from 1 to `count`. -/
def stageIterations (count : Int) : List Int :=
  (List.range count.toNat).map fun i => Int.ofNat i + 1

/-- The object counts of the per-iteration reports of one stage run: each
`Upload(ii)` / `Download(ii)` call builds its own `ReportDuration` with
`obj_per_thread = num_objects` (lines 219-222 and 291-294). -/
def iterationReports (num_threads num_objects obj_size_kb : Int)
    (count : Int) (time_sec : ℚ) : List ReportSummary :=
  (stageIterations count).map
    fun _ => reportDuration num_threads num_objects obj_size_kb time_sec

/-- The stage-level report wrapping the whole iteration loop (lines 320-323
and 330-333): `ReportDuration` built with
`obj_per_thread = num_objects * count`. -/
def overallStageReport (num_threads num_objects obj_size_kb count : Int)
    (time_sec : ℚ) : ReportSummary :=
  reportDuration num_threads (num_objects * count) obj_size_kb time_sec

/-- C9: any stage value other than the exact strings "upload" and
"download" (including "all" and unrecognized strings) runs both stages;
"upload" runs only the upload stage, "download" only the download stage,
and no stage value is ever rejected: at least one stage always runs. -/
theorem stage_selection (stage : String) :
    (stage ≠ "upload" → stage ≠ "download" →
      runsUploadStage stage = true ∧ runsDownloadStage stage = true) ∧
    (runsUploadStage ("upload") = true ∧
      runsDownloadStage ("upload") = false) ∧
    (runsUploadStage ("download") = false ∧
      runsDownloadStage ("download") = true) ∧
    (runsUploadStage stage = true ∨ runsDownloadStage stage = true) := by
  refine ⟨fun h1 h2 => ?_, by decide, by decide, ?_⟩
  · simp only [runsUploadStage, runsDownloadStage, decide_eq_true_eq]
    exact ⟨h2, h1⟩
  · by_cases hu : stage = "upload"
    · left
      simp only [runsUploadStage, decide_eq_true_eq, hu]
      intro hd
      exact absurd hd (by decide)
    · right
      simp only [runsDownloadStage, decide_eq_true_eq]
      exact hu

/-- C8: a selected stage with iteration count `k ≥ 0` executes exactly `k`
iterations, each producing its own report counting
`num_threads * num_objects` objects, all wrapped in one overall stage
report whose object count is `num_threads * num_objects * k`. -/
theorem stage_iterations_aggregate
    (num_threads num_objects obj_size_kb count : Int) (time_sec : ℚ)
    (hk : 0 ≤ count) :
    ((stageIterations count).length : Int) = count ∧
    ((iterationReports num_threads num_objects obj_size_kb count
        time_sec).length : Int) = count ∧
    (∀ r ∈ iterationReports num_threads num_objects obj_size_kb count
        time_sec, r.num_obj = num_threads * num_objects) ∧
    (overallStageReport num_threads num_objects obj_size_kb count
        time_sec).num_obj = num_threads * num_objects * count := by
  refine ⟨?_, ?_, ?_, ?_⟩
  · simp only [stageIterations, List.length_map, List.length_range]
    omega
  · simp only [iterationReports, stageIterations, List.length_map,
      List.length_range]
    omega
  · intro r hr
    simp only [iterationReports, List.mem_map] at hr
    obtain ⟨i, _, hr⟩ := hr
    rw [← hr]
    rfl
  · show num_threads * (num_objects * count) = num_threads * num_objects * count
    ring

/-- C8 witness: 2 threads, 4 objects per thread, 3 iterations. -/
theorem stage_iterations_aggregate_witness :
    ((stageIterations 3).length : Int) = 3 ∧
    (overallStageReport 2 4 1 3 1).num_obj = 2 * 4 * 3 :=
  ⟨(stage_iterations_aggregate 2 4 1 3 1 (by norm_num)).1,
    (stage_iterations_aggregate 2 4 1 3 1 (by norm_num)).2.2.2⟩

end S3Perf
